import Mathlib

/-!
# Verification of the urdf-robot-gallery repository-tree reconciliation engine

This file is a shallow embedding, in Lean 4, of the two reconciliation tools of
the repository:

* `tools/backfill-urdf-paths.mjs`  (backfill mode: path upgrade only)
* `tools/refresh-robots.mjs`       (refresh mode: also drops/extends entries)

JavaScript strings are modelled by Lean `String`; every string operation used
by the tools (`toLowerCase`, `startsWith`, `endsWith`, `split`, regex replaces,
`path.posix.basename`/`dirname`, `String.prototype.includes`, sorting) is
implemented here over the underlying character list, faithful to the
JavaScript behaviour on the ASCII strings the engine manipulates.
`Array.prototype.sort()`'s default order and the `localeCompare` comparator are
both modelled as code-point order, which agree with the JavaScript behaviour on
the ASCII inputs compared in this development.  JavaScript `Map` semantics
(`set` overwrites the value of an existing key; name buckets keep insertion
order) are modelled explicitly.  Network fetches are modelled by oracles: a
function from a catalog entry to the outcomes of its two GitHub API calls, and,
for the retry loop, a list of successive HTTP outcomes for one URL.  File
system writes are modelled as optional output components: the run functions
return the report and the conditional catalog/metadata writes as data.
The concurrency-2 worker pool pulls entries from a shared queue; with a
deterministic fetch oracle and disjoint per-entry state its observable effect
equals a left fold over the queue, which is how the runs are modelled.
-/

/-! ## Character and string primitives (models of the JS operations) -/

/-- ASCII model of `String.prototype.toLowerCase` on one character. -/
def lowerChar (c : Char) : Char :=
  if 'A' ≤ c && c ≤ 'Z' then Char.ofNat (c.toNat + 32) else c

/-- `value.toLowerCase()` (ASCII model). -/
def jsLower (s : String) : String := ⟨s.data.map lowerChar⟩

/-- Is `pre` a prefix of the second list? -/
def isPre : List Char → List Char → Bool
  | [], _ => true
  | _ :: _, [] => false
  | a :: as, b :: bs => a == b && isPre as bs

/-- `s.startsWith(pre)`. -/
def strStarts (s pre : String) : Bool := isPre pre.data s.data

/-- `s.endsWith(suf)`. -/
def strEnds (s suf : String) : Bool := isPre suf.data.reverse s.data.reverse

/-- Does `q` occur in `s` as a contiguous run (JS `s.includes(q)`)? -/
def listOccurs (q : List Char) : List Char → Bool
  | [] => q.isEmpty
  | c :: rest => isPre q (c :: rest) || listOccurs q rest

/-- `s.includes(q)`. -/
def strIncludes (s q : String) : Bool := listOccurs q.data s.data

/-- Split a character list at every occurrence of `c` (JS `s.split(c)`). -/
def splitChar (c : Char) : List Char → List (List Char)
  | [] => [[]]
  | x :: xs =>
    if x == c then [] :: splitChar c xs
    else
      match splitChar c xs with
      | [] => [[x]]
      | y :: ys => (x :: y) :: ys

/-- `s.split("/")`. -/
def splitSlash (s : String) : List String :=
  (splitChar '/' s.data).map (fun l => ⟨l⟩)

/-- `["a","b"].join(sep)`. -/
def joinSep (sep : String) : List String → String
  | [] => ""
  | [s] => s
  | s :: rest => s ++ sep ++ joinSep sep rest

/-- `value.replace(/\\/g, "/")`. -/
def replaceBackslash (s : String) : String :=
  ⟨s.data.map (fun c => if c == '\\' then '/' else c)⟩

/-- `value.replace(/^\/+/, "")`. -/
def stripLeadingSlashes (s : String) : String := ⟨s.data.dropWhile (· == '/')⟩

/-- `value.replace(/^\/+|\/+$/g, "")`: trim slashes at both ends. -/
def trimSlashes (s : String) : String :=
  ⟨((s.data.dropWhile (· == '/')).reverse.dropWhile (· == '/')).reverse⟩

/-- ASCII model of the whitespace removed by JS `String.prototype.trim`. -/
def isJsSpace (c : Char) : Bool :=
  c == ' ' || c == '\t' || c == '\n' || c == '\r'

/-- `value.trim()` (ASCII model). -/
def jsTrim (s : String) : String :=
  ⟨((s.data.dropWhile isJsSpace).reverse.dropWhile isJsSpace).reverse⟩

/-- `value.replace(/\.urdf$/i, "")`: drop a case-insensitive `.urdf` suffix. -/
def stripUrdfExt (s : String) : String :=
  if strEnds (jsLower s) ".urdf" then ⟨s.data.take (s.data.length - 5)⟩ else s

/-- Does the path carry the tracked extension (`p.toLowerCase().endsWith(".urdf")`)? -/
def hasUrdfExt (p : String) : Bool := strEnds (jsLower p) ".urdf"

/-- `path.posix.basename(s)`: drop trailing slashes, then take the part after
the last `/`; an all-slash nonempty input yields `"/"`. -/
def posixBasename (s : String) : String :=
  let t := ⟨(s.data.reverse.dropWhile (· == '/')).reverse⟩
  if t = "" then (if s = "" then "" else "/")
  else (splitSlash t).getLastD t

/-- `path.posix.dirname(s)`: drop trailing slashes, then take the part before
the last `/`; `"."` when there is no directory part, `"/"` for the root. -/
def posixDirname (s : String) : String :=
  let t : String := ⟨(s.data.reverse.dropWhile (· == '/')).reverse⟩
  if t = "" then (if strStarts s "/" then "/" else ".")
  else
    let parts := splitSlash t
    if parts.length ≤ 1 then "."
    else
      let d := joinSep "/" parts.dropLast
      if d = "" then "/" else d

/-- Code-point order on character lists. -/
def charListLe : List Char → List Char → Bool
  | [], _ => true
  | _ :: _, [] => false
  | a :: as, b :: bs => a < b || (a == b && charListLe as bs)

/-- Code-point order on strings: the model of both the default
`Array.prototype.sort()` order and of `a.localeCompare(b)` (they agree on the
ASCII inputs compared by the engine). -/
def strLe (a b : String) : Bool := charListLe a.data b.data

/-- The tie-break comparator `(a, b) => a.length - b.length || a.localeCompare(b)`
as a total order: shorter first, code-point order on equal lengths. -/
def pathLe (a b : String) : Bool :=
  a.data.length < b.data.length ||
    (a.data.length == b.data.length && strLe a b)

/-- `[...candidates].sort((a, b) => a.length - b.length || a.localeCompare(b))[0]`:
the least element of the list under `pathLe` (`""` on the empty list, whose
`[0]` is `undefined` in JS; callers guard non-emptiness). -/
def sortHead : List String → String
  | [] => ""
  | c :: cs => cs.foldl (fun best p => if pathLe best p then best else p) c

/-- Insert into a list sorted by `strLe`. -/
def insertSorted (x : String) : List String → List String
  | [] => [x]
  | y :: ys => if strLe x y then x :: y :: ys else y :: insertSorted x ys

/-- `Array.from(set).sort()` / `.sort((a, b) => a.localeCompare(b))`:
sort a list of strings in code-point order. -/
def sortStrings (l : List String) : List String := l.foldr insertSorted []

/-! ## Preview-key derivation (`slugify`, `hashString`, `toPreviewBase`) -/

/-- Membership in the character class `[a-zA-Z0-9._-]` of `slugify`. -/
def isSlugChar (c : Char) : Bool :=
  ('a' ≤ c && c ≤ 'z') || ('A' ≤ c && c ≤ 'Z') || ('0' ≤ c && c ≤ '9') ||
    c == '.' || c == '_' || c == '-'

/-- Collapse runs of `-` to a single `-`
(the replace of one-or-more hyphens by `"-"` in `slugify`). -/
def collapseHyphens (l : List Char) : List Char :=
  l.foldr (fun c acc => if c == '-' && acc.headD ' ' == '-' then acc else c :: acc) []

/-- `.replace(/^-|-$/g, "")`: remove one leading and one trailing hyphen. -/
def trimHyphenEnds (l : List Char) : List Char :=
  let l := if l.headD ' ' == '-' then l.tail else l
  if l.getLastD ' ' == '-' then l.dropLast else l

/-- `slugify` from both tools.  Its two middle replaces (every run of
characters outside `[a-zA-Z0-9._-]` becomes `"-"`, then every run of hyphens
becomes `"-"`) are modelled jointly: mapping every out-of-class character to
`-` and then collapsing hyphen runs produces the same string as replacing each
out-of-class run by one `-` and then collapsing. -/
def slugify (value : String) : String :=
  let t := stripUrdfExt (jsTrim value)
  let mapped := t.data.map (fun c => if isSlugChar c then c else '-')
  jsLower ⟨trimHyphenEnds (collapseHyphens mapped)⟩

/-- One step of the FNV-1a loop of `hashString`:
`hash ^= charCode; hash = Math.imul(hash, 16777619)`, on 32-bit values
(only the low 32 bits of the JS number are ever observed). -/
def hashStep (h : Nat) (c : Char) : Nat :=
  ((h ^^^ c.toNat) * 16777619) % 4294967296

/-- The numeric value of `hashString` before `.toString(36)`
(`charCodeAt` equals the code point on the ASCII strings hashed here). -/
def hashStringNat (value : String) : Nat := value.data.foldl hashStep 2166136261

/-- A base-36 digit, `0-9a-z`. -/
def base36Digit (n : Nat) : Char :=
  if n < 10 then Char.ofNat (48 + n) else Char.ofNat (87 + n)

/-- Accumulating worker for `toBase36`; `fuel` bounds the digit count (the
division by 36 strictly shrinks `n`, so a fuel of `n` never runs out). -/
def toBase36Go : Nat → Nat → List Char → List Char
  | 0, _, acc => acc
  | fuel + 1, n, acc =>
    if n = 0 then acc
    else toBase36Go fuel (n / 36) (base36Digit (n % 36) :: acc)

/-- `n.toString(36)` for a non-negative integer. -/
def toBase36 (n : Nat) : String :=
  if n = 0 then "0" else ⟨toBase36Go n n []⟩

/-- `hashString` from both tools: 32-bit FNV-1a, rendered in base 36. -/
def hashString (value : String) : String := toBase36 (hashStringNat value)

/-- `toPreviewBase` from `backfill-urdf-paths.mjs` (and `validate-robots.mjs`):
normalize separators, strip the tracked extension, slug of the basename
(`"robot"` when empty), then `--` and the hash of the full normalized path. -/
def toPreviewBase (value : String) : String :=
  let normalized := stripUrdfExt (replaceBackslash value)
  let nm :=
    let lastSeg := (splitSlash normalized).getLastD ""
    if lastSeg = "" then normalized else lastSeg
  let slug := let s := slugify nm; if s = "" then "robot" else s
  slug ++ "--" ++ hashString normalized

/-- The preview key of a (repository, file) pair:
`` `${repoKey}::${toPreviewBase(file)}` ``. -/
def previewKeyOf (repoKey file : String) : String :=
  repoKey ++ "::" ++ toPreviewBase file

/-! ## Repository keys and URL parsing -/

/-- `value.replace(/^https?:\/\/github\.com\//, "")`. -/
def stripGithubHost (value : String) : String :=
  if strStarts value "https://github.com/" then ⟨value.data.drop 19⟩
  else if strStarts value "http://github.com/" then ⟨value.data.drop 18⟩
  else value

/-- `normalizeRepoKey` from both tools: strip the GitHub host, keep the first
two `/`-segments, lowercase; `""` on a falsy input. -/
def normalizeRepoKey (value : String) : String :=
  if value = "" then ""
  else jsLower (joinSep "/" ((splitSlash (stripGithubHost value)).take 2))

/-- `value.replace(/\.git$/i, "")`. -/
def stripDotGit (s : String) : String :=
  if strEnds (jsLower s) ".git" then ⟨s.data.take (s.data.length - 4)⟩ else s

/-- The `{owner, repo}` pair of `parseRepo`. -/
structure RepoInfo where
  owner : String
  repo : String
deriving DecidableEq, Repr

/-- `parseRepo` from both tools: strip host and `.git`, destructure the first
two `/`-segments, `none` when either is missing or empty. -/
def parseRepo (repoUrl : String) : Option RepoInfo :=
  if repoUrl = "" then none
  else
    let cleaned := stripDotGit (stripGithubHost repoUrl)
    let parts := splitSlash cleaned
    let owner := parts.getD 0 ""
    let repo := parts.getD 1 ""
    if owner = "" || repo = "" then none
    else some ⟨owner, repo⟩

/-! ## Single HTTP fetch (`githubFetchOnce`, both tools) -/

/-- The result of one `githubFetchOnce` call: the parsed body, an HTTP error
carrying the response status and headers, or a body-parse failure. -/
inductive FetchOnceResult (α : Type) where
  | ok (body : α)
  | httpError (status : Nat) (headers : List (String × String))
  | parseError
deriving DecidableEq, Repr

/-- `githubFetchOnce` from both tools, as a function of the response it
receives.  `parsedBody` models the outcome of `JSON.parse` on the body text
(`some` = parses, `none` = throws).  The source rejects with an error carrying
`statusCode` and `headers` whenever `res.statusCode !== 200`; only a status of
exactly `200` reaches the body-parsing path. -/
def githubFetchOnce {α : Type} (status : Nat) (headers : List (String × String))
    (parsedBody : Option α) : FetchOnceResult α :=
  if status ≠ 200 then .httpError status headers
  else
    match parsedBody with
    | some v => .ok v
    | none => .parseError

/-- Modelled from the spec/claim wording, for comparison with
`githubFetchOnce`: resolve with the parsed body exactly when the status is 2xx
and the body parses; fail with the status and headers on any non-2xx status. -/
def claimedFetchOnce {α : Type} (status : Nat) (headers : List (String × String))
    (parsedBody : Option α) : FetchOnceResult α :=
  if 200 ≤ status && status ≤ 299 then
    match parsedBody with
    | some v => .ok v
    | none => .parseError
  else .httpError status headers

/-! ## Retry loop (`githubFetch`, both tools)

One call of `githubFetchOnce` is abstracted as an `HttpOutcome`; a request is a
list of the successive outcomes the loop would observe.  `remaining` models
`Number(headers["x-ratelimit-remaining"] || "")` (`none` = absent or `NaN`) and
`reset` models `Number(headers["x-ratelimit-reset"] || "")`; the source guards
on `reset` being truthy, so both an absent header and a zero value disable the
rate-limit branch. -/

/-- One observed outcome of `githubFetchOnce` inside the retry loop. -/
inductive HttpOutcome where
  | ok (body : String)
  | fail (status : Nat) (remaining : Option Nat) (reset : Option Nat)
deriving DecidableEq, Repr

/-- The error the loop rethrows, keeping the fields the loop inspected. -/
structure HttpError where
  status : Nat
  remaining : Option Nat
  reset : Option Nat
deriving DecidableEq, Repr

/-- The rate-limit guard:
`status === 403 && Number.isFinite(remaining) && remaining === 0 && reset`. -/
def isRateLimited (status : Nat) (remaining reset : Option Nat) : Bool :=
  status == 403 && remaining == some 0 && reset.getD 0 != 0

/-- `[429, 500, 502, 503, 504].includes(status)`. -/
def retryableStatus (status : Nat) : Bool :=
  status == 429 || status == 500 || status == 502 || status == 503 || status == 504

/-- The `while (true)` body of `githubFetch`, from both tools.  `attempt` is the
mutable counter; note that `attempt += 1` runs before the rate-limit check, so
the rate-limit branch also recurses with the incremented counter.  `none`
models a run that consumed every provided outcome without terminating. -/
def githubFetchGo (maxRetries : Nat) (attempt : Nat) :
    List HttpOutcome → Option (Except HttpError String)
  | [] => none
  | .ok body :: _ => some (.ok body)
  | .fail status remaining reset :: rest =>
    let attempt' := attempt + 1
    if isRateLimited status remaining reset then
      -- wait until `reset * 1000 - Date.now() + 1000` (at least `retryDelayMs`),
      -- then `continue`; the wait is a pure delay with no observable state
      githubFetchGo maxRetries attempt' rest
    else if !retryableStatus status || maxRetries < attempt' then
      some (.error ⟨status, remaining, reset⟩)
    else
      -- exponential backoff `retryDelayMs * 2^(attempt-1)`, then loop
      githubFetchGo maxRetries attempt' rest

/-- `githubFetch(url)` with the attempt counter starting at `0`. -/
def githubFetch (maxRetries : Nat) (outcomes : List HttpOutcome) :
    Option (Except HttpError String) :=
  githubFetchGo maxRetries 0 outcomes

/-- Modelled from the claim's wording, for comparison with `githubFetchGo`:
identical, except that a rate-limit wait-and-retry leaves the attempt counter
(the exponential-backoff budget) unchanged. -/
def claimedFetchGo (maxRetries : Nat) (attempt : Nat) :
    List HttpOutcome → Option (Except HttpError String)
  | [] => none
  | .ok body :: _ => some (.ok body)
  | .fail status remaining reset :: rest =>
    if isRateLimited status remaining reset then
      claimedFetchGo maxRetries attempt rest
    else if !retryableStatus status || maxRetries < attempt + 1 then
      some (.error ⟨status, remaining, reset⟩)
    else
      claimedFetchGo maxRetries (attempt + 1) rest

/-- `claimedFetchGo` with the attempt counter starting at `0`. -/
def claimedFetch (maxRetries : Nat) (outcomes : List HttpOutcome) :
    Option (Except HttpError String) :=
  claimedFetchGo maxRetries 0 outcomes

/-! ## Data model: tree listings, catalog entries, fetch oracles -/

/-- One node of the GitHub tree response (`{path, type}`; only these two fields
are read).  A node with an empty `path` models a falsy `node?.path`. -/
structure TreeNode where
  path : String
  type : String
deriving DecidableEq, Repr

/-- The tree response: the `truncated` flag and the node list. -/
structure TreeData where
  truncated : Bool
  tree : List TreeNode
deriving DecidableEq, Repr

/-- The repository-metadata response; `defaultBranch = ""` models a falsy
`default_branch` (the source then falls back to `"main"`; the branch is only
interpolated into the tree URL, which the oracle abstracts). -/
structure RepoData where
  defaultBranch : String
deriving DecidableEq, Repr

/-- The outcome of one `githubFetch` call as seen by `processEntry`: either the
parsed JSON value or the message of the error thrown after retry exhaustion. -/
inductive Fetched (α : Type) where
  | ok (val : α)
  | err (msg : String)
deriving DecidableEq, Repr

/-- The two fetches `processEntry` performs for one entry.  With a
deterministic network this is a function of the entry (the URLs are built from
`entry.repo` and the fetched default branch). -/
structure EntryFetch where
  repoResp : Fetched RepoData
  treeResp : Fetched TreeData
deriving Repr

/-- One element of `entry.robots`: a falsy element, a legacy bare string, or an
object reference.  Of an object the engine reads and rewrites only `file`;
`name` stands for the untouched remaining fields (spread by `{...robot}`). -/
inductive Robot where
  | nullR
  | strR (s : String)
  | objR (file : String) (name : String)
deriving DecidableEq, Repr

/-- `typeof robot === "string" ? robot : robot?.file`, with falsy results
mapped to `none` (used by the preview-key pass of backfill). -/
def robotFileOf : Robot → Option String
  | .nullR => none
  | .strR s => if s = "" then none else some s
  | .objR f _ => if f = "" then none else some f

/-- One catalog entry; `repo`, `repoKey` and `path` model the homonymous JSON
fields with `""` for an absent/falsy value, `robots` the reference array. -/
structure Entry where
  repo : String
  repoKey : String
  path : String
  robots : List Robot
deriving DecidableEq, Repr

/-- `normalizeRepoKey(entry.repo || entry.repoKey)`, used by the filter and by
`processEntry` in both tools. -/
def entryRepoKey (e : Entry) : String :=
  normalizeRepoKey (if e.repo = "" then e.repoKey else e.repo)

/-- Blob selection: `(treeData.tree || []).filter(node => node?.path &&
node?.type === "blob").map(node => node.path)`. -/
def blobPaths (td : TreeData) : List String :=
  (td.tree.filter (fun n => n.path != "" && n.type == "blob")).map (fun n => n.path)

/-- The scoped-path normalization of `processEntry` (identical in both tools):
trim the entry's `path`; when it is set and no tree path already lives under
it, prepend it to every tree path. -/
def scopeNormalize (entryPath : String) (treePaths : List String) : List String :=
  let normalizedPath := if entryPath = "" then "" else trimSlashes entryPath
  let hasScope :=
    if normalizedPath = "" then false
    else treePaths.any (fun p => strStarts p (normalizedPath ++ "/"))
  if normalizedPath != "" && !hasScope then
    treePaths.map (fun p => normalizedPath ++ "/" ++ p)
  else treePaths

/-- The candidate index of one entry: scoped-normalized blob paths carrying the
tracked extension. -/
def entryUrdfPaths (entryPath : String) (td : TreeData) : List String :=
  (scopeNormalize entryPath (blobPaths td)).filter hasUrdfExt

/-- `urdfByPath.get(key)`: the map is filled by `urdfByPath.set(p.toLowerCase(), p)`
over `urdfPaths` in order, so a lookup returns the **last** path whose
lowercasing equals the key. -/
def urdfByPathGet (urdfPaths : List String) (key : String) : Option String :=
  (urdfPaths.filter (fun p => jsLower p == key)).getLast?

/-- `urdfByName.get(nameKey) || []`: the paths whose lowercased basename equals
the key, in insertion (tree) order. -/
def urdfByNameGet (urdfPaths : List String) (nameKey : String) : List String :=
  urdfPaths.filter (fun p => jsLower (posixBasename p) == nameKey)

/-! ## Path matcher (`pickBestPath` in both tools) -/

/-- The scoping step shared by both `pickBestPath` variants: when a preferred
scope is set (truthy) and at least one candidate lives under its trimmed form,
narrow to those candidates. -/
def scopeNarrow (scopedPath : String) (paths : List String) : List String :=
  if scopedPath = "" then paths
  else
    let pfx := trimSlashes scopedPath
    let inScope := paths.filter (fun p => strStarts p (pfx ++ "/"))
    if inScope.isEmpty then paths else inScope

/-- The extra narrowing step of the refresh tool's `pickBestPath`: when the
original reference contains a `/`, keep the candidates containing the
reference's (normalized) directory name as a substring, if any do. -/
def sameDirNarrow (originalPath : String) (paths : List String) : List String :=
  if originalPath != "" && strIncludes originalPath "/" then
    let normalized := stripLeadingSlashes (replaceBackslash originalPath)
    let sameDir := paths.filter (fun p => strIncludes p (posixDirname normalized))
    if sameDir.isEmpty then paths else sameDir
  else paths

/-- `pickBestPath(paths, preferredPrefix)` from `backfill-urdf-paths.mjs`
(`paths` being `undefined` in the source is modelled by the empty list). -/
def pickBestPath (paths : List String) (scopedPath : String) : String :=
  if paths.isEmpty then ""
  else sortHead (scopeNarrow scopedPath paths)

/-- `pickBestPath(paths, preferredPrefix, originalPath)` from
`refresh-robots.mjs`: as backfill's, with the same-directory narrowing between
the scoping step and the tie-break. -/
def pickBestPathR (paths : List String) (scopedPath : String)
    (originalPath : String) : String :=
  if paths.isEmpty then ""
  else sortHead (sameDirNarrow originalPath (scopeNarrow scopedPath paths))

/-- The two-line match shared by every reference branch of both tools:
`const direct = urdfByPath.get(raw.toLowerCase());`
`const candidate = direct || pickBestPath(urdfByName.get(nameKey), scope);`
(backfill variant). -/
def matchCandidate (urdfPaths : List String) (scopedPath raw : String) : String :=
  match urdfByPathGet urdfPaths (jsLower raw) with
  | some p => p
  | none => pickBestPath (urdfByNameGet urdfPaths (jsLower (posixBasename raw))) scopedPath

/-- The refresh variant of `matchCandidate`, passing the raw reference as the
`originalPath` of `pickBestPathR`. -/
def matchCandidateR (urdfPaths : List String) (scopedPath raw : String) : String :=
  match urdfByPathGet urdfPaths (jsLower raw) with
  | some p => p
  | none =>
    pickBestPathR (urdfByNameGet urdfPaths (jsLower (posixBasename raw))) scopedPath raw

/-- Modelled from the claim's wording (C2), for comparison with the two
`pickBestPath` variants: narrow the basename candidates to the scope when one
qualifies, then tie-break by shortest length first and lexicographic order on
ties, with **no further narrowing step** in between. -/
def claimedPickBestPath (paths : List String) (scopedPath : String) : String :=
  if paths.isEmpty then ""
  else sortHead (scopeNarrow scopedPath paths)

/-! ## Backfill engine (`tools/backfill-urdf-paths.mjs`) -/

/-- One record of `report.missing` / `report.missingFiles`:
`{repoKey, reason}` for fetch failures (no `file` field), `{repoKey, file,
reason}` for unresolved references. -/
structure MissingRecord where
  repoKey : String
  file : Option String
  reason : String
deriving DecidableEq, Repr

/-- The mutable run state of backfill: the accumulating report counters and
lists, the `collisionMap` (insertion-ordered `Map` of preview key to the pushed
file list) and the `previewKeySet` (insertion-ordered `Set`). -/
structure BState where
  updated : Nat
  unchanged : Nat
  skipped : Nat
  missing : List MissingRecord
  truncated : List String
  collisionMap : List (String × List String)
  previewKeySet : List String
deriving DecidableEq, Repr

/-- `Set.prototype.add`: append when absent (insertion order preserved). -/
def setAdd (s : List String) (k : String) : List String :=
  if s.contains k then s else s ++ [k]

/-- `const list = collisionMap.get(key) || []; list.push(file);
collisionMap.set(key, list);` — a JS `Map` keeps the first-insertion position
of a key and `set` replaces its value; since the map's keys are unique,
updating the first occurrence in an association list is that exact behaviour. -/
def mapPush : List (String × List String) → String → String →
    List (String × List String)
  | [], k, v => [(k, [v])]
  | p :: rest, k, v =>
    if p.1 == k then (p.1, p.2 ++ [v]) :: rest else p :: mapPush rest k v

/-- `collisionMap.get(k) || []`: the bucket of files recorded under a preview
key (observation used to state the collision properties). -/
def collisionFilesOf : List (String × List String) → String → List String
  | [], _ => []
  | p :: rest, k => if p.1 == k then p.2 else collisionFilesOf rest k

/-- The preview-key pass backfill runs over `updatedRobots` when the entry
changed: for every robot with a truthy file, in order, add the preview key to
the global set and push the file under that key in the collision map. -/
def addPreviewKeys (repoKey : String) : List Robot → BState → BState
  | [], st => st
  | r :: rs, st =>
    match robotFileOf r with
    | none => addPreviewKeys repoKey rs st
    | some file =>
      addPreviewKeys repoKey rs
        { st with previewKeySet := setAdd st.previewKeySet (previewKeyOf repoKey file),
                  collisionMap := mapPush st.collisionMap (previewKeyOf repoKey file) file }

/-- One iteration of backfill's `robots.map(...)`: the (possibly rewritten)
robot, whether this reference changed, and the missing records it pushed. -/
def backfillMapRobot (urdfPaths : List String) (normalizedPath repoKey : String)
    (robot : Robot) : Robot × Bool × List MissingRecord :=
  match robot with
  | .nullR => (robot, false, [])
  | .strR s =>
    let raw := stripLeadingSlashes (replaceBackslash s)
    let candidate := matchCandidate urdfPaths normalizedPath raw
    if candidate != "" && candidate != s then (.strR candidate, true, [])
    else if candidate = "" then (robot, false, [⟨repoKey, some s, "not found in tree"⟩])
    else (robot, false, [])
  | .objR file nm =>
    let fileValue := stripLeadingSlashes (replaceBackslash file)
    if fileValue = "" then (robot, false, [])
    else
      let candidate := matchCandidate urdfPaths normalizedPath fileValue
      if candidate = "" then (robot, false, [⟨repoKey, some file, "not found in tree"⟩])
      else if candidate != file then (.objR candidate nm, true, [])
      else (robot, false, [])

/-- The result of backfill's `robots.map(...)` pass over a whole entry. -/
structure RobotScan where
  robots : List Robot
  changed : Bool
  missing : List MissingRecord
deriving DecidableEq, Repr

/-- Backfill's reference loop: map every robot, OR the changed flags, append
the missing records in order. -/
def scanRobots (urdfPaths : List String) (normalizedPath repoKey : String) :
    List Robot → RobotScan
  | [] => ⟨[], false, []⟩
  | r :: rs =>
    let h := backfillMapRobot urdfPaths normalizedPath repoKey r
    let rest := scanRobots urdfPaths normalizedPath repoKey rs
    ⟨h.1 :: rest.robots, h.2.1 || rest.changed, h.2.2 ++ rest.missing⟩

/-- `processEntry` of `backfill-urdf-paths.mjs`, returning the new run state
and the (possibly mutated-in-place) entry.

The source's two fetch-failure handlers end in `continue` although
`processEntry` is a function, not a loop body (lines 218 and 233) — in
JavaScript that is a SyntaxError (`Illegal continue statement`), so the file
as committed cannot even be loaded; the evident intent, and what the parallel
code of `refresh-robots.mjs` does with `return`, is to record the failure and
leave the entry.  The model uses that intended `return`; claim C3 records the
defect. -/
def processEntryB (oracle : Entry → EntryFetch) (st : BState) (entry : Entry) :
    BState × Entry :=
  let repoKey := entryRepoKey entry
  if repoKey = "" then ({ st with skipped := st.skipped + 1 }, entry)
  else
    match parseRepo entry.repo with
    | none => ({ st with skipped := st.skipped + 1 }, entry)
    | some _ =>
      match (oracle entry).repoResp with
      | .err msg =>
        ({ st with skipped := st.skipped + 1,
                   missing := st.missing ++ [⟨repoKey, none, "repo fetch failed: " ++ msg⟩] },
         entry)
      | .ok _repoData =>
        -- `const branch = repoData.default_branch || "main"` only feeds the
        -- tree URL, which the oracle abstracts
        match (oracle entry).treeResp with
        | .err msg =>
          ({ st with skipped := st.skipped + 1,
                     missing := st.missing ++ [⟨repoKey, none, "tree fetch failed: " ++ msg⟩] },
           entry)
        | .ok treeData =>
          if treeData.truncated then
            ({ st with truncated := st.truncated ++ [repoKey],
                       skipped := st.skipped + 1 }, entry)
          else
            let normalizedPath := if entry.path = "" then "" else trimSlashes entry.path
            let urdfPaths := entryUrdfPaths entry.path treeData
            let scan := scanRobots urdfPaths normalizedPath repoKey entry.robots
            let st := { st with missing := st.missing ++ scan.missing }
            if scan.changed then
              let entry' := { entry with robots := scan.robots }
              let st := addPreviewKeys repoKey scan.robots st
              ({ st with updated := st.updated + 1 }, entry')
            else
              ({ st with unchanged := st.unchanged + 1 }, entry)

/-- The entry filter and cap shared by both tools (`--only` allow-list,
`--limit` cap), applied to the index-tagged catalog; indices model the object
identity of the parsed JSON entries. -/
def eligibleIdx (only : List String) (limit : Nat) (indexed : List (Nat × Entry)) :
    List (Nat × Entry) :=
  let filtered := indexed.filter (fun ie =>
    entryRepoKey ie.2 != "" &&
      (only.isEmpty || only.contains (entryRepoKey ie.2)))
  if 0 < limit then filtered.take limit else filtered

/-- The worker-pool pass of backfill over the eligible entries: a left fold, to
which the shared-queue pool is observationally equal under a deterministic
oracle (each entry is processed exactly once, start to finish, by one worker;
the only shared state is the append-only report accumulator). -/
def backfillResults (only : List String) (limit : Nat)
    (oracle : Entry → EntryFetch) (robotsJson : List Entry) :
    BState × List (Nat × Entry) :=
  (eligibleIdx only limit robotsJson.enum).foldl
    (fun acc ie =>
      let r := processEntryB oracle acc.1 ie.2
      (r.1, acc.2 ++ [(ie.1, r.2)]))
    (⟨0, 0, 0, [], [], [], []⟩, [])

/-- The catalog backfill writes on `--write`: `robotsJson` itself, whose
processed entries were mutated in place (every entry stays, processed or not). -/
def backfillCommitted (only : List String) (limit : Nat)
    (oracle : Entry → EntryFetch) (robotsJson : List Entry) : List Entry :=
  robotsJson.enum.map (fun ie =>
    match (backfillResults only limit oracle robotsJson).2.find? (fun r => r.1 == ie.1) with
    | some r => r.2
    | none => ie.2)

/-- The final backfill report (collisions are the map entries with two or more
pushed files; `previewKeys` is the sorted stale-key set). -/
structure BackfillReport where
  updated : Nat
  unchanged : Nat
  skipped : Nat
  missing : List MissingRecord
  truncated : List String
  collisions : List (String × List String)
  previewKeys : List String
deriving DecidableEq, Repr

/-- The `{version, generatedAt, count}` metadata record. -/
structure MetaRecord where
  version : Nat
  generatedAt : String
  count : Nat
deriving DecidableEq, Repr

/-- Everything one backfill invocation emits: the report artifact and the
preview-key list (always written), and the catalog & metadata writes
(`some` only on `--write`).  Serialization (`JSON.stringify(..., null, 2)` /
`join(",")`) is deterministic in these values, so equal components mean
byte-identical artifacts. -/
structure BackfillOutput where
  report : BackfillReport
  previewKeysFile : String
  catalogWrite : Option (List Entry)
  metaWrite : Option MetaRecord
deriving Repr

/-- `main()` of `backfill-urdf-paths.mjs` as a function of the flags, the fetch
oracle, the clock reading `now` (`new Date().toISOString()`), and the parsed
catalog. -/
def backfillRun (only : List String) (limit : Nat) (writeFlag : Bool)
    (oracle : Entry → EntryFetch) (now : String) (robotsJson : List Entry) :
    BackfillOutput :=
  let st := (backfillResults only limit oracle robotsJson).1
  let collisions := st.collisionMap.filter (fun p => 1 < p.2.length)
  let previewKeys := sortStrings st.previewKeySet
  let mutated := backfillCommitted only limit oracle robotsJson
  { report := ⟨st.updated, st.unchanged, st.skipped, st.missing, st.truncated,
               collisions, previewKeys⟩
    previewKeysFile := joinSep "," previewKeys
    catalogWrite := if writeFlag then some mutated else none
    metaWrite := if writeFlag then some ⟨1, now, mutated.length⟩ else none }

/-! ## Refresh engine (`tools/refresh-robots.mjs`) -/

/-- The mutable run state of refresh: the four accumulating report lists
(`generatedAt` is fixed at report creation). -/
structure RState where
  removedRepos : List String
  missingFiles : List MissingRecord
  truncated : List String
  updatedRepos : List String
deriving DecidableEq, Repr

/-- Refresh's reference loop: walk `entry.robots`, dropping falsy robots and
empty files, matching the rest; returns the rebuilt robot list, the set of
matched (lowercased) paths, and the missing records pushed. -/
def refreshScanRobots (urdfPaths : List String) (normalizedPath repoKey : String) :
    List Robot → List Robot × List String × List MissingRecord
  | [] => ([], [], [])
  | robot :: rs =>
    let rest := refreshScanRobots urdfPaths normalizedPath repoKey rs
    match robot with
    | .nullR => rest
    | .strR s =>
      let rawFile := stripLeadingSlashes (replaceBackslash s)
      if rawFile = "" then rest
      else
        let candidate := matchCandidateR urdfPaths normalizedPath rawFile
        if candidate = "" then
          (rest.1, rest.2.1, ⟨repoKey, some rawFile, "not found in tree"⟩ :: rest.2.2)
        else
          (.strR candidate :: rest.1, jsLower candidate :: rest.2.1, rest.2.2)
    | .objR file nm =>
      let rawFile := stripLeadingSlashes (replaceBackslash file)
      if rawFile = "" then rest
      else
        let candidate := matchCandidateR urdfPaths normalizedPath rawFile
        if candidate = "" then
          (rest.1, rest.2.1, ⟨repoKey, some rawFile, "not found in tree"⟩ :: rest.2.2)
        else
          (.objR candidate nm :: rest.1, jsLower candidate :: rest.2.1, rest.2.2)

/-- The unmatched-path pass of refresh: tree candidates claimed by no match,
sorted by `localeCompare`, appended as fresh object references whose name is
the basename without the tracked extension. -/
def refreshExtras (urdfPaths : List String) (matchedPaths : List String) :
    List Robot :=
  (sortStrings (urdfPaths.filter (fun p => !matchedPaths.contains (jsLower p)))).map
    (fun extra => .objR extra (stripUrdfExt (posixBasename extra)))

/-- `processEntry` of `refresh-robots.mjs`: the new run state, the (possibly
mutated) entry, and the `keep` flag of its result. -/
def processEntryR (oracle : Entry → EntryFetch) (st : RState) (entry : Entry) :
    RState × Entry × Bool :=
  let repoKey := entryRepoKey entry
  if repoKey = "" then (st, entry, true)
  else
    match parseRepo entry.repo with
    | none => (st, entry, true)
    | some _ =>
      match (oracle entry).repoResp with
      | .err msg =>
        ({ st with missingFiles :=
             st.missingFiles ++ [⟨repoKey, none, "repo fetch failed: " ++ msg⟩] },
         entry, true)
      | .ok _repoData =>
        match (oracle entry).treeResp with
        | .err msg =>
          ({ st with missingFiles :=
               st.missingFiles ++ [⟨repoKey, none, "tree fetch failed: " ++ msg⟩] },
           entry, true)
        | .ok treeData =>
          if treeData.truncated then
            ({ st with truncated := st.truncated ++ [repoKey] }, entry, true)
          else
            let normalizedPath := if entry.path = "" then "" else trimSlashes entry.path
            let urdfPaths := entryUrdfPaths entry.path treeData
            if urdfPaths.isEmpty then
              ({ st with removedRepos := st.removedRepos ++ [repoKey] }, entry, false)
            else
              let scan := refreshScanRobots urdfPaths normalizedPath repoKey entry.robots
              let updatedRobots := scan.1 ++ refreshExtras urdfPaths scan.2.1
              ({ st with missingFiles := st.missingFiles ++ scan.2.2,
                         updatedRepos := st.updatedRepos ++ [repoKey] },
               { entry with robots := updatedRobots }, true)

/-- The worker-pool pass of refresh over the eligible entries (sequential fold,
as for backfill): final run state plus, per processed entry, its index, its
processed version and its `keep` flag. -/
def refreshResults (only : List String) (limit : Nat)
    (oracle : Entry → EntryFetch) (robotsJson : List Entry) :
    RState × List (Nat × Entry × Bool) :=
  (eligibleIdx only limit robotsJson.enum).foldl
    (fun acc ie =>
      let r := processEntryR oracle acc.1 ie.2
      (r.1, acc.2 ++ [(ie.1, r.2.1, r.2.2)]))
    (⟨[], [], [], []⟩, [])

/-- The catalog refresh writes on `--write`:
`robotsJson.filter(entry => keepSet.has(entry))`.  `keepSet` holds the
(in-place mutated) entry objects of the results with `keep`; since the
eligible list is an order-preserving sublist of the catalog and each object
occurs once, the filter yields exactly the kept processed entries in
processing order. -/
def refreshCommitted (only : List String) (limit : Nat)
    (oracle : Entry → EntryFetch) (robotsJson : List Entry) : List Entry :=
  (((refreshResults only limit oracle robotsJson).2.filter
      (fun r => r.2.2)).map (fun r => r.2.1))

/-- The refresh report. -/
structure RefreshReport where
  generatedAt : String
  removedRepos : List String
  missingFiles : List MissingRecord
  truncated : List String
  updatedRepos : List String
deriving DecidableEq, Repr

/-- Everything one refresh invocation emits: the report artifact (always
written) and the catalog & metadata writes (`some` only on `--write`). -/
structure RefreshOutput where
  report : RefreshReport
  catalogWrite : Option (List Entry)
  metaWrite : Option MetaRecord
deriving Repr

/-- `main()` of `refresh-robots.mjs` as a function of the flags, the fetch
oracle, the clock reading `now`, and the parsed catalog. -/
def refreshRun (only : List String) (limit : Nat) (writeFlag : Bool)
    (oracle : Entry → EntryFetch) (now : String) (robotsJson : List Entry) :
    RefreshOutput :=
  let st := (refreshResults only limit oracle robotsJson).1
  let refreshed := refreshCommitted only limit oracle robotsJson
  { report := ⟨now, st.removedRepos, st.missingFiles, st.truncated, st.updatedRepos⟩
    catalogWrite := if writeFlag then some refreshed else none
    metaWrite := if writeFlag then some ⟨1, now, refreshed.length⟩ else none }

/-! ## Concrete fixtures (used by the per-claim witnesses and demonstrations) -/

/-- Oracle whose repository `o/a` fails its metadata fetch and whose other
repositories fail their tree fetch. -/
def c3Oracle : Entry → EntryFetch := fun e =>
  if e.repo = "https://github.com/o/a" then ⟨.err "boom", .ok ⟨false, []⟩⟩
  else ⟨.ok ⟨"main"⟩, .err "gone"⟩

/-- An entry of repository `o/a`. -/
def c3EntryA : Entry := ⟨"https://github.com/o/a", "", "", [.objR "x.urdf" "x"]⟩

/-- An entry of repository `o/b`. -/
def c3EntryB : Entry := ⟨"https://github.com/o/b", "", "", [.objR "x.urdf" "x"]⟩

/-- Oracle whose repository `o/a` has a tree with no `.urdf` blob and whose
other repositories contain exactly `b.urdf`. -/
def c5Oracle : Entry → EntryFetch := fun e =>
  if e.repo = "https://github.com/o/a" then
    ⟨.ok ⟨"main"⟩, .ok ⟨false, [⟨"readme.md", "blob"⟩]⟩⟩
  else ⟨.ok ⟨"main"⟩, .ok ⟨false, [⟨"b.urdf", "blob"⟩]⟩⟩

/-- An entry of repository `o/a` (whose tree has no tracked files). -/
def c5EntryA : Entry := ⟨"https://github.com/o/a", "", "", [.objR "x.urdf" "x"]⟩

/-- An entry of repository `o/b` (whose reference resolves to itself). -/
def c5EntryB : Entry := ⟨"https://github.com/o/b", "", "", [.objR "b.urdf" "b"]⟩

/-- Oracle serving `a.urdf` for repository `o/a` and `b.urdf` otherwise. -/
def c6Oracle : Entry → EntryFetch := fun e =>
  if e.repo = "https://github.com/o/a" then
    ⟨.ok ⟨"main"⟩, .ok ⟨false, [⟨"a.urdf", "blob"⟩]⟩⟩
  else ⟨.ok ⟨"main"⟩, .ok ⟨false, [⟨"b.urdf", "blob"⟩]⟩⟩

/-- An entry of repository `o/a`, already consistent with its tree. -/
def c6EntryA : Entry := ⟨"https://github.com/o/a", "", "", [.objR "a.urdf" "a"]⟩

/-- An entry of repository `o/b`, already consistent with its tree. -/
def c6EntryB : Entry := ⟨"https://github.com/o/b", "", "", [.objR "b.urdf" "b"]⟩

/-- Oracle returning a truncated tree response. -/
def c7Oracle : Entry → EntryFetch := fun _ => ⟨.ok ⟨"main"⟩, .ok ⟨true, []⟩⟩

/-- An ordinary entry for the truncation scenario. -/
def c7Entry : Entry := ⟨"https://github.com/o/r", "", "", [.objR "x.urdf" "x"]⟩

/-- Oracle whose tree holds `sub/x.urdf` (forcing the first reference to be
rewritten) and `a/keep.urdf` (matching the second reference unchanged). -/
def c8Oracle : Entry → EntryFetch := fun _ =>
  ⟨.ok ⟨"main"⟩, .ok ⟨false, [⟨"sub/x.urdf", "blob"⟩, ⟨"a/keep.urdf", "blob"⟩]⟩⟩

/-- An entry with one stale reference (`x.urdf`) and one up-to-date reference
(`a/keep.urdf`). -/
def c8Entry : Entry :=
  ⟨"https://github.com/o/r", "", "", [.objR "x.urdf" "A", .objR "a/keep.urdf" "B"]⟩

/-- Oracle whose tree holds only `b.urdf`, leaving `c8EntryStable` unchanged. -/
def c8OracleStable : Entry → EntryFetch := fun _ =>
  ⟨.ok ⟨"main"⟩, .ok ⟨false, [⟨"b.urdf", "blob"⟩]⟩⟩

/-- An entry whose single reference already matches its tree path. -/
def c8EntryStable : Entry := ⟨"https://github.com/o/r", "", "", [.objR "b.urdf" "b"]⟩

/-- Oracle whose tree holds two paths, `SUB/x.urdf` and `sub/x.urdf`, that are
equal up to case; the lowercased-path map keeps the later `sub/x.urdf`. -/
def c9Oracle : Entry → EntryFetch := fun _ =>
  ⟨.ok ⟨"main"⟩, .ok ⟨false, [⟨"SUB/x.urdf", "blob"⟩, ⟨"sub/x.urdf", "blob"⟩]⟩⟩

/-- An entry scoped to `SUB` with one bare-filename reference. -/
def c9Entry : Entry := ⟨"https://github.com/o/r", "", "SUB", [.objR "x.urdf" "n"]⟩

/-- The committed form of `c9Entry` after one backfill run against `c9Oracle`:
the scoped basename match rewrote the reference to `SUB/x.urdf`. -/
def c9Entry1 : Entry := ⟨"https://github.com/o/r", "", "SUB", [.objR "SUB/x.urdf" "n"]⟩

/-- Oracle whose tree holds the single clean path `a/x.urdf`. -/
def c9OracleClean : Entry → EntryFetch := fun _ =>
  ⟨.ok ⟨"main"⟩, .ok ⟨false, [⟨"a/x.urdf", "blob"⟩]⟩⟩

/-- An entry with one bare-filename reference for the clean-tree scenario. -/
def c9EntryClean : Entry := ⟨"https://github.com/o/r", "", "", [.objR "x.urdf" "n"]⟩

/-! ## Shared helper lemmas -/

/-- The fold of `sortHead` picks an element of the list. -/
theorem sortHead_fold_mem (cs : List String) (c : String) :
    cs.foldl (fun best p => if pathLe best p then best else p) c ∈ c :: cs := by
  induction cs generalizing c with
  | nil => simp
  | cons p ps ih =>
    rw [List.foldl_cons]
    rcases List.mem_cons.mp (ih (if pathLe c p then c else p)) with h | h
    · rw [h]
      by_cases hcp : pathLe c p = true
      · simp [hcp]
      · simp only [Bool.not_eq_true] at hcp
        simp [hcp]
    · exact List.mem_cons.mpr (Or.inr (List.mem_cons.mpr (Or.inr h)))

/-- `sortHead` of a nonempty list is one of its elements. -/
theorem sortHead_mem (l : List String) (h : l ≠ []) : sortHead l ∈ l := by
  cases l with
  | nil => exact absurd rfl h
  | cons c cs => exact sortHead_fold_mem cs c

/-- The scoping step only narrows the candidate set. -/
theorem scopeNarrow_subset (sp : String) (paths : List String) (x : String)
    (hx : x ∈ scopeNarrow sp paths) : x ∈ paths := by
  simp only [scopeNarrow] at hx
  split at hx
  · exact hx
  · split at hx
    · exact hx
    · exact List.mem_of_mem_filter hx

/-- The same-directory step only narrows the candidate set. -/
theorem sameDirNarrow_subset (orig : String) (paths : List String) (x : String)
    (hx : x ∈ sameDirNarrow orig paths) : x ∈ paths := by
  simp only [sameDirNarrow] at hx
  split at hx
  · split at hx
    · exact hx
    · exact List.mem_of_mem_filter hx
  · exact hx

/-- The scoping step keeps a nonempty candidate set nonempty. -/
theorem scopeNarrow_ne_nil (sp : String) (paths : List String) (h : paths ≠ []) :
    scopeNarrow sp paths ≠ [] := by
  simp only [scopeNarrow]
  split
  · exact h
  · split
    · exact h
    · next hne => exact fun habs => hne (by simp [habs])

/-- A nonempty pick of backfill's `pickBestPath` comes from the path list. -/
theorem pickBestPath_mem (paths : List String) (sp : String)
    (h : pickBestPath paths sp ≠ "") : pickBestPath paths sp ∈ paths := by
  simp only [pickBestPath] at h ⊢
  split at h
  · exact absurd rfl h
  · next hne =>
    have hp : paths ≠ [] := fun habs => by simp [habs] at hne
    rw [if_neg (by simpa using hne)]
    exact scopeNarrow_subset sp paths _ (sortHead_mem _ (scopeNarrow_ne_nil sp paths hp))

/-- A hit of the lowercased-full-path map is one of the indexed paths. -/
theorem urdfByPathGet_mem (urdfPaths : List String) (key p : String)
    (h : urdfByPathGet urdfPaths key = some p) : p ∈ urdfPaths :=
  List.mem_of_mem_filter (List.mem_of_mem_getLast? h)

/-- A nonempty backfill match candidate comes from the candidate index. -/
theorem matchCandidate_mem (urdfPaths : List String) (sp raw : String)
    (h : matchCandidate urdfPaths sp raw ≠ "") :
    matchCandidate urdfPaths sp raw ∈ urdfPaths := by
  unfold matchCandidate at h ⊢
  split at h
  · next p hp => exact urdfByPathGet_mem urdfPaths _ p hp
  · next hp => exact List.mem_of_mem_filter (pickBestPath_mem _ sp h)

/-- A nonempty list whose elements all equal `c` has last element `c`. -/
theorem getLast?_of_all_eq (l : List String) (c : String) (hne : l ≠ [])
    (hall : ∀ x ∈ l, x = c) : l.getLast? = some c := by
  induction l with
  | nil => exact absurd rfl hne
  | cons a as ih =>
    cases as with
    | nil => simp [hall a (by simp)]
    | cons b bs =>
      rw [List.getLast?_cons_cons]
      exact ih (by simp) (fun x hx => hall x (List.mem_cons.mpr (Or.inr hx)))

/-! ## Claim C1 — dry-run purity -/

/-- C1: for every catalog, fetch oracle and clock reading, running either mode
with and without the commit flag produces equal reports (and, for backfill, an
equal preview-key list file); the dry run writes neither the catalog nor the
metadata record, while the commit run writes both.  Serialization being a
deterministic function of these values, equal report components mean
byte-identical report artifacts. -/
theorem c1_dry_run_purity (only : List String) (limit : Nat)
    (oracle : Entry → EntryFetch) (now : String) (robots : List Entry) :
    ((backfillRun only limit true oracle now robots).report
        = (backfillRun only limit false oracle now robots).report
      ∧ (backfillRun only limit true oracle now robots).previewKeysFile
        = (backfillRun only limit false oracle now robots).previewKeysFile
      ∧ (backfillRun only limit false oracle now robots).catalogWrite = none
      ∧ (backfillRun only limit false oracle now robots).metaWrite = none
      ∧ (backfillRun only limit true oracle now robots).catalogWrite
        = some (backfillCommitted only limit oracle robots)
      ∧ (backfillRun only limit true oracle now robots).metaWrite
        = some ⟨1, now, (backfillCommitted only limit oracle robots).length⟩)
  ∧ ((refreshRun only limit true oracle now robots).report
        = (refreshRun only limit false oracle now robots).report
      ∧ (refreshRun only limit false oracle now robots).catalogWrite = none
      ∧ (refreshRun only limit false oracle now robots).metaWrite = none
      ∧ (refreshRun only limit true oracle now robots).catalogWrite
        = some (refreshCommitted only limit oracle robots)
      ∧ (refreshRun only limit true oracle now robots).metaWrite
        = some ⟨1, now, (refreshCommitted only limit oracle robots).length⟩) :=
  ⟨⟨rfl, rfl, rfl, rfl, rfl, rfl⟩, ⟨rfl, rfl, rfl, rfl, rfl⟩⟩

/-! ## Claim C2 — path matcher heuristic -/

/-- C2 counterexample: in refresh mode a further narrowing step *does* exist
between scoping and the tie-break.  For tree candidates
`["a/so100.urdf", "x/meshes/so100.urdf"]` and reference `"meshes/so100.urdf"`
with no scoped path, the refresh matcher narrows to the candidates containing
the reference's directory `"meshes"` and returns `"x/meshes/so100.urdf"`,
while the claimed scope-then-tie-break heuristic returns the shorter
`"a/so100.urdf"`. -/
theorem c2_refresh_extra_narrowing_cex :
    matchCandidateR ["a/so100.urdf", "x/meshes/so100.urdf"] "" "meshes/so100.urdf"
      = "x/meshes/so100.urdf"
  ∧ claimedPickBestPath
      (urdfByNameGet ["a/so100.urdf", "x/meshes/so100.urdf"]
        (jsLower (posixBasename "meshes/so100.urdf"))) ""
      = "a/so100.urdf"
  ∧ ("x/meshes/so100.urdf" : String) ≠ "a/so100.urdf" :=
  ⟨rfl, rfl, by decide⟩

/-- C2 (amended): the claimed heuristic — exact case-insensitive match first,
then case-insensitive basename candidates, scope narrowing, and the
shortest-then-lexicographic tie-break — is exactly backfill's matcher, with no
further narrowing; refresh's matcher has one further narrowing step between
scoping and the tie-break (same-directory preference), and agrees with the
claimed heuristic whenever the reference contains no slash — in particular on
the two `so100.urdf` examples, which both modes resolve as claimed. -/
theorem c2_amended_matcher (paths : List String) (scope orig : String)
    (h : strIncludes orig "/" = false) :
    (pickBestPath paths scope = claimedPickBestPath paths scope
      ∧ pickBestPathR paths scope orig = pickBestPath paths scope)
  ∧ matchCandidate ["arm/urdf/so100.urdf", "leg/urdf/so100.urdf"] "" "so100.urdf"
      = "arm/urdf/so100.urdf"
  ∧ matchCandidate ["arm/urdf/so100.urdf", "leg/urdf/so100.urdf"] "leg" "so100.urdf"
      = "leg/urdf/so100.urdf"
  ∧ matchCandidateR ["arm/urdf/so100.urdf", "leg/urdf/so100.urdf"] "" "so100.urdf"
      = "arm/urdf/so100.urdf"
  ∧ matchCandidateR ["arm/urdf/so100.urdf", "leg/urdf/so100.urdf"] "leg" "so100.urdf"
      = "leg/urdf/so100.urdf" := by
  refine ⟨⟨rfl, ?_⟩, rfl, rfl, rfl, rfl⟩
  simp only [pickBestPathR, pickBestPath, sameDirNarrow, h, Bool.and_false, if_neg]
  simp

/-- Witness for `c2_amended_matcher` at the slash-free reference `"so100.urdf"`. -/
theorem c2_amended_matcher_w :
    pickBestPathR ["arm/urdf/so100.urdf", "leg/urdf/so100.urdf"] "leg" "so100.urdf"
      = pickBestPath ["arm/urdf/so100.urdf", "leg/urdf/so100.urdf"] "leg" :=
  (c2_amended_matcher ["arm/urdf/so100.urdf", "leg/urdf/so100.urdf"] "leg"
    "so100.urdf" (by decide)).1.2

/-! ## Claim C4 — rate-limit recovery -/

/-- C4 counterexample: the rate-limit retry *does* count against the retry
budget.  With a budget of one retry and the outcome sequence
(rate-limited 403, then 500, then success), the source's loop — whose
`attempt += 1` precedes the rate-limit branch — exhausts the budget at the 500
and surfaces the error, while the claimed budget-preserving loop retries the
500 and succeeds. -/
theorem c4_budget_cex :
    githubFetch 1 [.fail 403 (some 0) (some 5), .fail 500 none none, .ok "body"]
      = some (.error ⟨500, none, none⟩)
  ∧ claimedFetch 1 [.fail 403 (some 0) (some 5), .fail 500 none none, .ok "body"]
      = some (.ok "body") :=
  ⟨rfl, rfl⟩

/-- C4 (amended): on a 403 with a zero rate-limit-remaining header and a
truthy reset timestamp the client sleeps until `reset + 1s` (never below the
base retry delay) and then retries unconditionally — but the retry increments
the shared attempt counter, so every rate-limit wait consumes one unit of the
exponential-backoff retry budget available to subsequent retryable failures of
the same request (and advances their backoff exponent). -/
theorem c4_amended_rate_limit (maxRetries attempt status : Nat)
    (remaining reset : Option Nat) (rest : List HttpOutcome)
    (h : isRateLimited status remaining reset = true) :
    githubFetchGo maxRetries attempt (.fail status remaining reset :: rest)
      = githubFetchGo maxRetries (attempt + 1) rest := by
  simp [githubFetchGo, h]

/-- Witness for `c4_amended_rate_limit` at a concrete rate-limited outcome. -/
theorem c4_amended_rate_limit_w :
    isRateLimited 403 (some 0) (some 5) = true
  ∧ githubFetchGo 3 0 [.fail 403 (some 0) (some 5)]
      = githubFetchGo 3 1 [] :=
  ⟨by decide, c4_amended_rate_limit 3 0 403 (some 0) (some 5) [] (by decide)⟩

/-! ## Claim C10 — single-fetch contract -/

/-- C10 counterexample: a 201 response with a parseable body is *rejected*
by `githubFetchOnce` (which accepts only status exactly 200), while the
claimed fetch contract resolves it. -/
theorem c10_status_201_cex :
    githubFetchOnce 201 ([] : List (String × String)) (some "body")
      = .httpError 201 []
  ∧ claimedFetchOnce 201 ([] : List (String × String)) (some "body")
      = .ok "body" :=
  ⟨rfl, rfl⟩

/-- C10 (amended): a single fetch resolves with the parsed body exactly when
the status is exactly 200 and the body parses as JSON, and fails with an error
carrying the response's status and headers on every non-200 status — including
the other 2xx statuses. -/
theorem c10_amended_contract (status : Nat) (headers : List (String × String))
    (parsedBody : Option String) (v : String) :
    (githubFetchOnce status headers parsedBody = .ok v
      ↔ status = 200 ∧ parsedBody = some v)
  ∧ (githubFetchOnce status headers parsedBody = .httpError status headers
      ↔ status ≠ 200) := by
  unfold githubFetchOnce
  by_cases h : status = 200
  · subst h
    cases parsedBody <;> simp
  · simp [h]

/-! ## Claim C3 — per-entry failure isolation -/

/-- C3 (refresh side, which the claim correctly describes): whether the
repository-metadata fetch or the tree fetch fails, refresh's `processEntry`
appends exactly one `{repoKey, reason}` record, keeps the entry (`keep = true`)
and leaves its references unmodified; the run itself is a total fold over the
remaining entries, so no per-entry failure aborts it.  The backfill side of
the claim fails: see the claim's recorded defect (`continue` outside a loop,
a JavaScript SyntaxError, where `return` was intended). -/
theorem c3_refresh_failure_isolated
    (oracle : Entry → EntryFetch) (st : RState) (entry : Entry) (ri : RepoInfo)
    (msg : String) (oracle2 : Entry → EntryFetch) (st2 : RState) (entry2 : Entry)
    (ri2 : RepoInfo) (rd2 : RepoData) (msg2 : String)
    (hkey : entryRepoKey entry ≠ "") (hrepo : parseRepo entry.repo = some ri)
    (hfail : (oracle entry).repoResp = .err msg)
    (hkey2 : entryRepoKey entry2 ≠ "") (hrepo2 : parseRepo entry2.repo = some ri2)
    (hok2 : (oracle2 entry2).repoResp = .ok rd2)
    (hfail2 : (oracle2 entry2).treeResp = .err msg2) :
    processEntryR oracle st entry
      = ({ st with missingFiles := st.missingFiles
            ++ [⟨entryRepoKey entry, none, "repo fetch failed: " ++ msg⟩] },
         entry, true)
  ∧ processEntryR oracle2 st2 entry2
      = ({ st2 with missingFiles := st2.missingFiles
            ++ [⟨entryRepoKey entry2, none, "tree fetch failed: " ++ msg2⟩] },
         entry2, true) := by
  constructor
  · simp [processEntryR, hkey, hrepo, hfail]
  · simp [processEntryR, hkey2, hrepo2, hok2, hfail2]

/-- Witness for `c3_refresh_failure_isolated`: one concrete metadata-fetch
failure and one concrete tree-fetch failure. -/
theorem c3_refresh_failure_isolated_w :
    processEntryR c3Oracle ⟨[], [], [], []⟩ c3EntryA
      = (⟨[], [⟨"o/a", none, "repo fetch failed: boom"⟩], [], []⟩, c3EntryA, true)
  ∧ processEntryR c3Oracle ⟨[], [], [], []⟩ c3EntryB
      = (⟨[], [⟨"o/b", none, "tree fetch failed: gone"⟩], [], []⟩, c3EntryB, true) :=
  c3_refresh_failure_isolated c3Oracle ⟨[], [], [], []⟩ c3EntryA ⟨"o", "a"⟩ "boom"
    c3Oracle ⟨[], [], [], []⟩ c3EntryB ⟨"o", "b"⟩ ⟨"main"⟩ "gone"
    (by decide) (by decide) (by decide) (by decide) (by decide) (by decide) (by decide)

/-! ## Claim C7 — truncation safety -/

/-- C7: in both modes, a truncated tree response makes `processEntry` record
the repository in the report's truncated list and stop: the entry is returned
unmodified, no reference matching happens (the run state changes in no other
component), the entry is kept and it is never recorded as removed. -/
theorem c7_truncation_safety (oracle : Entry → EntryFetch) (stB : BState)
    (stR : RState) (entry : Entry) (ri : RepoInfo) (rd : RepoData) (td : TreeData)
    (hkey : entryRepoKey entry ≠ "")
    (hrepo : parseRepo entry.repo = some ri)
    (hR : (oracle entry).repoResp = .ok rd)
    (hT : (oracle entry).treeResp = .ok td)
    (htr : td.truncated = true) :
    processEntryB oracle stB entry
      = ({ stB with truncated := stB.truncated ++ [entryRepoKey entry],
                    skipped := stB.skipped + 1 }, entry)
  ∧ processEntryR oracle stR entry
      = ({ stR with truncated := stR.truncated ++ [entryRepoKey entry] },
         entry, true) := by
  constructor
  · simp [processEntryB, hkey, hrepo, hR, hT, htr]
  · simp [processEntryR, hkey, hrepo, hR, hT, htr]

/-- Witness for `c7_truncation_safety` at a concrete truncated response. -/
theorem c7_truncation_safety_w :
    processEntryB c7Oracle ⟨0, 0, 0, [], [], [], []⟩ c7Entry
      = (⟨0, 0, 1, [], ["o/r"], [], []⟩, c7Entry)
  ∧ processEntryR c7Oracle ⟨[], [], [], []⟩ c7Entry
      = (⟨[], [], ["o/r"], []⟩, c7Entry, true) :=
  c7_truncation_safety c7Oracle ⟨0, 0, 0, [], [], [], []⟩ ⟨[], [], [], []⟩ c7Entry
    ⟨"o", "r"⟩ ⟨"main"⟩ ⟨true, []⟩ (by decide) (by decide) (by decide) (by decide)
    (by decide)

/-! ## Claim C5 — zero-match removal in refresh mode -/

/-- C5: a processed refresh entry whose scoped-normalized candidate index is
empty is recorded in `removedRepos` and dropped (`keep = false`) before any
reference is examined (the entry's `robots` are arbitrary in this statement);
backfill's committed catalog always has exactly as many entries as its input
(it never drops an entry); and on a concrete two-entry catalog the zero-match
entry is absent from the committed catalog and present in `removedRepos`. -/
theorem c5_zero_match_removal (oracle : Entry → EntryFetch) (st : RState)
    (entry : Entry) (ri : RepoInfo) (rd : RepoData) (td : TreeData)
    (only : List String) (limit : Nat) (now : String) (robots2 : List Entry)
    (hkey : entryRepoKey entry ≠ "")
    (hrepo : parseRepo entry.repo = some ri)
    (hR : (oracle entry).repoResp = .ok rd)
    (hT : (oracle entry).treeResp = .ok td)
    (htr : td.truncated = false)
    (hzero : entryUrdfPaths entry.path td = []) :
    processEntryR oracle st entry
      = ({ st with removedRepos := st.removedRepos ++ [entryRepoKey entry] },
         entry, false)
  ∧ ((backfillRun only limit true oracle now robots2).catalogWrite.getD []).length
      = robots2.length
  ∧ (refreshRun [] 0 true c5Oracle "t" [c5EntryA, c5EntryB]).catalogWrite
      = some [c5EntryB]
  ∧ (refreshRun [] 0 true c5Oracle "t" [c5EntryA, c5EntryB]).report.removedRepos
      = ["o/a"] := by
  refine ⟨?_, ?_, rfl, rfl⟩
  · simp [processEntryR, hkey, hrepo, hR, hT, htr, hzero]
  · simp [backfillRun, backfillCommitted]

/-- Witness for `c5_zero_match_removal` at a concrete zero-match tree. -/
theorem c5_zero_match_removal_w :
    processEntryR c5Oracle ⟨[], [], [], []⟩ c5EntryA
      = (⟨["o/a"], [], [], []⟩, c5EntryA, false)
  ∧ ((backfillRun [] 0 true c5Oracle "t" [c5EntryA, c5EntryB]).catalogWrite.getD
      []).length = 2
  ∧ (refreshRun [] 0 true c5Oracle "t" [c5EntryA, c5EntryB]).catalogWrite
      = some [c5EntryB]
  ∧ (refreshRun [] 0 true c5Oracle "t" [c5EntryA, c5EntryB]).report.removedRepos
      = ["o/a"] :=
  c5_zero_match_removal c5Oracle ⟨[], [], [], []⟩ c5EntryA ⟨"o", "a"⟩ ⟨"main"⟩
    ⟨false, [⟨"readme.md", "blob"⟩]⟩ [] 0 "t" [c5EntryA, c5EntryB]
    (by decide) (by decide) (by decide) (by decide) (by decide) (by decide)

/-! ## Claim C6 — refresh commit retains only processed entries -/

/-- C6: the catalog refresh commits is, definitionally, the kept processed
entries in processing order (`robotsJson.filter(e => keepSet.has(e))` with
`keepSet` holding the kept processed objects); every kept result appears in
it; and concretely, an entry excluded by the allow-list or by the numeric cap
is absent from the committed catalog even though nothing touched it. -/
theorem c6_commit_retains_processed (only : List String) (limit : Nat)
    (oracle : Entry → EntryFetch) (now : String) (robots : List Entry)
    (r0 : Nat × Entry × Bool)
    (hr0 : r0 ∈ (refreshResults only limit oracle robots).2)
    (hk : r0.2.2 = true) :
    ((refreshRun only limit true oracle now robots).catalogWrite
        = some (refreshCommitted only limit oracle robots))
  ∧ refreshCommitted only limit oracle robots
      = ((refreshResults only limit oracle robots).2.filter
          (fun r => r.2.2)).map (fun r => r.2.1)
  ∧ r0.2.1 ∈ refreshCommitted only limit oracle robots
  ∧ (refreshRun ["o/b"] 0 true c6Oracle "t" [c6EntryA, c6EntryB]).catalogWrite
      = some [c6EntryB]
  ∧ (refreshRun [] 1 true c6Oracle "t" [c6EntryA, c6EntryB]).catalogWrite
      = some [c6EntryA] := by
  refine ⟨rfl, rfl, ?_, rfl, rfl⟩
  exact List.mem_map.mpr ⟨r0, List.mem_filter.mpr ⟨hr0, hk⟩, rfl⟩

/-- Witness for `c6_commit_retains_processed` at a concrete kept result. -/
theorem c6_commit_retains_processed_w :
    c6EntryB ∈ refreshCommitted ["o/b"] 0 c6Oracle [c6EntryA, c6EntryB] :=
  (c6_commit_retains_processed ["o/b"] 0 c6Oracle "t" [c6EntryA, c6EntryB]
    (1, c6EntryB, true) (by decide) rfl).2.2.1

/-! ## Claim C8 — stale-key and collision reporting -/

/-- Adding a key to the set model puts it in the set. -/
theorem setAdd_mem_self (s : List String) (k : String) : k ∈ setAdd s k := by
  unfold setAdd
  split
  · next h => exact List.mem_of_elem_eq_true h
  · exact List.mem_append.mpr (Or.inr (by simp))

/-- Adding a key to the set model keeps the existing members. -/
theorem setAdd_mem_mono (s : List String) (a k : String) (h : a ∈ s) :
    a ∈ setAdd s k := by
  unfold setAdd
  split
  · exact h
  · exact List.mem_append.mpr (Or.inl h)

/-- Pushing a file under a key puts it in that key's bucket. -/
theorem mapPush_files_self (m : List (String × List String)) (k v : String) :
    v ∈ collisionFilesOf (mapPush m k v) k := by
  induction m with
  | nil => simp [mapPush, collisionFilesOf]
  | cons p rest ih =>
    by_cases h : p.1 == k
    · simp [mapPush, collisionFilesOf, h]
    · simp [mapPush, collisionFilesOf, h, ih]

/-- Pushing a file never removes a file from any bucket. -/
theorem mapPush_files_mono (m : List (String × List String)) (k k' v v' : String)
    (h : v ∈ collisionFilesOf m k) :
    v ∈ collisionFilesOf (mapPush m k' v') k := by
  induction m with
  | nil => simp [collisionFilesOf] at h
  | cons p rest ih =>
    by_cases hp : p.1 == k'
    · by_cases hk : p.1 == k
      · simp only [collisionFilesOf, hk, if_true] at h
        simp [mapPush, collisionFilesOf, hp, hk, List.mem_append, h]
      · simp only [collisionFilesOf, hk, Bool.false_eq_true, if_false] at h
        simp [mapPush, collisionFilesOf, hp, hk, h]
    · by_cases hk : p.1 == k
      · simp only [collisionFilesOf, hk, if_true] at h
        simp [mapPush, collisionFilesOf, hp, hk, h]
      · simp only [collisionFilesOf, hk, Bool.false_eq_true, if_false] at h
        simp [mapPush, collisionFilesOf, hp, hk, ih h]

/-- The preview-key pass keeps existing stale keys. -/
theorem addPreviewKeys_key_mem_mono (rk : String) (robots : List Robot)
    (st : BState) (a : String) (h : a ∈ st.previewKeySet) :
    a ∈ (addPreviewKeys rk robots st).previewKeySet := by
  induction robots generalizing st with
  | nil => exact h
  | cons r0 rs ih =>
    unfold addPreviewKeys
    cases hf : robotFileOf r0 with
    | none => simp only [hf]; exact ih st h
    | some f => simp only [hf]; exact ih _ (setAdd_mem_mono _ _ _ h)

/-- The preview-key pass keeps existing collision-bucket contents. -/
theorem addPreviewKeys_files_mono (rk : String) (robots : List Robot)
    (st : BState) (k v : String) (h : v ∈ collisionFilesOf st.collisionMap k) :
    v ∈ collisionFilesOf (addPreviewKeys rk robots st).collisionMap k := by
  induction robots generalizing st with
  | nil => exact h
  | cons r0 rs ih =>
    unfold addPreviewKeys
    cases hf : robotFileOf r0 with
    | none => simp only [hf]; exact ih st h
    | some f => simp only [hf]; exact ih _ (mapPush_files_mono _ _ _ _ _ h)

/-- Every robot with a truthy file contributes its preview key to the stale
set and its file to that key's collision bucket. -/
theorem addPreviewKeys_mem (rk : String) (robots : List Robot) (st : BState)
    (r : Robot) (f : String) (hf : robotFileOf r = some f) (hr : r ∈ robots) :
    previewKeyOf rk f ∈ (addPreviewKeys rk robots st).previewKeySet
  ∧ f ∈ collisionFilesOf (addPreviewKeys rk robots st).collisionMap
      (previewKeyOf rk f) := by
  induction robots generalizing st with
  | nil => cases hr
  | cons r0 rs ih =>
    rcases List.mem_cons.mp hr with rfl | hr'
    · unfold addPreviewKeys
      simp only [hf]
      exact ⟨addPreviewKeys_key_mem_mono _ _ _ _ (setAdd_mem_self _ _),
             addPreviewKeys_files_mono _ _ _ _ _ (mapPush_files_self _ _ _)⟩
    · unfold addPreviewKeys
      cases hf0 : robotFileOf r0 with
      | none => simp only [hf0]; exact ih st hr'
      | some f0 => simp only [hf0]; exact ih _ hr'

/-- C8 counterexample: in backfill, when an entry has at least one changed
reference, the preview keys of *all* of its references are recorded — here the
second reference `a/keep.urdf` resolves to itself (it is returned unmodified),
yet its preview key lands in the stale set; and refresh's report carries no
preview-key or collision component at all. -/
theorem c8_unchanged_ref_key_cex :
    (processEntryB c8Oracle ⟨0, 0, 0, [], [], [], []⟩ c8Entry).2.robots.getD 1 .nullR
      = .objR "a/keep.urdf" "B"
  ∧ previewKeyOf "o/r" "a/keep.urdf"
      ∈ (processEntryB c8Oracle ⟨0, 0, 0, [], [], [], []⟩ c8Entry).1.previewKeySet
  ∧ (refreshRun [] 0 true c8Oracle "t" [c8Entry]).report
      = ⟨"t", [], [], [], ["o/r"]⟩ :=
  ⟨rfl, by decide, rfl⟩

/-- C8 (amended): in backfill mode, when at least one reference of an entry
changed, the preview keys of **all** of the entry's references — changed or
not — are added to the global stale set, and each file value is pushed into
its key's collision bucket; an entry with no changed reference contributes no
keys at all; the report's collision section is exactly the buckets holding two
or more files; and the commit proceeds regardless.  Refresh mode records no
preview keys and has no collision section (its report type has no such
component). -/
theorem c8_amended_keys (rk : String) (robots : List Robot) (st : BState)
    (r : Robot) (f : String)
    (oracle3 : Entry → EntryFetch) (st3 : BState) (entry3 : Entry)
    (ri3 : RepoInfo) (rd3 : RepoData) (td3 : TreeData)
    (only : List String) (limit : Nat) (oracle4 : Entry → EntryFetch)
    (now : String) (robots4 : List Entry)
    (hr : r ∈ robots) (hf : robotFileOf r = some f)
    (hkey3 : entryRepoKey entry3 ≠ "") (hrepo3 : parseRepo entry3.repo = some ri3)
    (hR3 : (oracle3 entry3).repoResp = .ok rd3)
    (hT3 : (oracle3 entry3).treeResp = .ok td3)
    (htr3 : td3.truncated = false)
    (hnc : (scanRobots (entryUrdfPaths entry3.path td3)
        (if entry3.path = "" then "" else trimSlashes entry3.path)
        (entryRepoKey entry3) entry3.robots).changed = false) :
    (previewKeyOf rk f ∈ (addPreviewKeys rk robots st).previewKeySet
      ∧ f ∈ collisionFilesOf (addPreviewKeys rk robots st).collisionMap
          (previewKeyOf rk f))
  ∧ (processEntryB oracle3 st3 entry3).1.previewKeySet = st3.previewKeySet
  ∧ (backfillRun only limit true oracle4 now robots4).report.collisions
      = ((backfillResults only limit oracle4 robots4).1.collisionMap.filter
          (fun p => 1 < p.2.length))
  ∧ (backfillRun only limit true oracle4 now robots4).catalogWrite
      = some (backfillCommitted only limit oracle4 robots4) := by
  refine ⟨addPreviewKeys_mem rk robots st r f hf hr, ?_, rfl, rfl⟩
  simp [processEntryB, hkey3, hrepo3, hR3, hT3, htr3, hnc]

/-- Witness for `c8_amended_keys` at a concrete changed entry and a concrete
unchanged entry. -/
theorem c8_amended_keys_w :
    (previewKeyOf "o/r" "a/keep.urdf"
        ∈ (addPreviewKeys "o/r" [.objR "a/keep.urdf" "B"]
            ⟨0, 0, 0, [], [], [], []⟩).previewKeySet
      ∧ "a/keep.urdf" ∈ collisionFilesOf
          (addPreviewKeys "o/r" [.objR "a/keep.urdf" "B"]
            ⟨0, 0, 0, [], [], [], []⟩).collisionMap
          (previewKeyOf "o/r" "a/keep.urdf"))
  ∧ (processEntryB c8OracleStable ⟨0, 0, 0, [], [], [], []⟩
        c8EntryStable).1.previewKeySet = []
  ∧ (backfillRun [] 0 true c8Oracle "t" [c8Entry]).report.collisions
      = ((backfillResults [] 0 c8Oracle [c8Entry]).1.collisionMap.filter
          (fun p => 1 < p.2.length))
  ∧ (backfillRun [] 0 true c8Oracle "t" [c8Entry]).catalogWrite
      = some (backfillCommitted [] 0 c8Oracle [c8Entry]) :=
  c8_amended_keys "o/r" [.objR "a/keep.urdf" "B"] ⟨0, 0, 0, [], [], [], []⟩
    (.objR "a/keep.urdf" "B") "a/keep.urdf"
    c8OracleStable ⟨0, 0, 0, [], [], [], []⟩ c8EntryStable ⟨"o", "r"⟩ ⟨"main"⟩
    ⟨false, [⟨"b.urdf", "blob"⟩]⟩ [] 0 c8Oracle "t" [c8Entry]
    (by decide) (by decide) (by decide) (by decide) (by decide) (by decide)
    (by decide) (by decide)

/-! ## Claim C9 — backfill idempotence -/

/-- Under case-injectivity of the candidate index, the lowercased-path map
sends a member's lowercasing to the member itself. -/
theorem urdfByPathGet_self (u : List String) (c : String) (hc : c ∈ u)
    (H2 : ∀ p ∈ u, ∀ q ∈ u, jsLower p = jsLower q → p = q) :
    urdfByPathGet u (jsLower c) = some c := by
  unfold urdfByPathGet
  have hcf : c ∈ u.filter (fun p => jsLower p == jsLower c) :=
    List.mem_filter.mpr ⟨hc, by simp⟩
  apply getLast?_of_all_eq _ c (List.ne_nil_of_mem hcf)
  intro x hx
  have hx' := List.mem_filter.mp hx
  exact H2 x hx'.1 c hc (by simpa using hx'.2)

/-- A path already in the candidate index re-resolves to itself (the exact
case-insensitive lookup hits first). -/
theorem matchCandidate_self (u : List String) (np c : String) (hc : c ∈ u)
    (H2 : ∀ p ∈ u, ∀ q ∈ u, jsLower p = jsLower q → p = q) :
    matchCandidate u np c = c := by
  unfold matchCandidate
  rw [urdfByPathGet_self u c hc H2]

/-- A rewritten reference is stable: matching it again changes nothing.
`H1` says the index's paths are fixed by the reference normalization (no
backslashes, no leading slashes); `H2` says no two index paths collide
case-insensitively. -/
theorem backfillMapRobot_stable (u : List String) (np rk : String)
    (r r' : Robot) (miss : List MissingRecord)
    (H1 : ∀ p ∈ u, stripLeadingSlashes (replaceBackslash p) = p)
    (H2 : ∀ p ∈ u, ∀ q ∈ u, jsLower p = jsLower q → p = q)
    (h : backfillMapRobot u np rk r = (r', true, miss)) :
    backfillMapRobot u np rk r' = (r', false, []) := by
  cases r with
  | nullR => simp [backfillMapRobot] at h
  | strR s =>
    simp only [backfillMapRobot] at h
    split at h
    · next hcond =>
      simp only [Prod.mk.injEq] at h
      obtain ⟨hr', -, -⟩ := h
      subst hr'
      rw [Bool.and_eq_true] at hcond
      obtain ⟨h1, -⟩ := hcond
      have hcne : matchCandidate u np (stripLeadingSlashes (replaceBackslash s)) ≠ "" :=
        bne_iff_ne.mp h1
      have hcu := matchCandidate_mem u np (stripLeadingSlashes (replaceBackslash s)) hcne
      have hnrm := H1 _ hcu
      have hmc := matchCandidate_self u np _ hcu H2
      simp only [backfillMapRobot, hnrm, hmc]
      simp [hcne]
    · split at h <;> simp at h
  | objR f nm =>
    simp only [backfillMapRobot] at h
    split at h
    · simp at h
    · split at h
      · simp at h
      · split at h
        · next hne hcand =>
          simp only [Prod.mk.injEq] at h
          obtain ⟨hr', -, -⟩ := h
          subst hr'
          have hcne : matchCandidate u np (stripLeadingSlashes (replaceBackslash f)) ≠ "" := hne
          have hcu := matchCandidate_mem u np (stripLeadingSlashes (replaceBackslash f)) hcne
          have hnrm := H1 _ hcu
          have hmc := matchCandidate_self u np _ hcu H2
          simp only [backfillMapRobot, hnrm, hmc]
          simp [hcne]
        · simp at h

/-- A robot reported unchanged is returned as it was, or: every changed robot
raises the flag. -/
theorem backfillMapRobot_cases (u : List String) (np rk : String) (r : Robot) :
    (backfillMapRobot u np rk r).2.1 = true ∨ (backfillMapRobot u np rk r).1 = r := by
  cases r with
  | nullR => exact Or.inr rfl
  | strR s =>
    simp only [backfillMapRobot]
    split
    · exact Or.inl rfl
    · split
      · exact Or.inr rfl
      · exact Or.inr rfl
  | objR f nm =>
    simp only [backfillMapRobot]
    split
    · exact Or.inr rfl
    · split
      · exact Or.inr rfl
      · split
        · exact Or.inl rfl
        · exact Or.inr rfl

/-- Matching one robot twice is stable in its first two components. -/
theorem backfillMapRobot_twice (u : List String) (np rk : String) (r : Robot)
    (H1 : ∀ p ∈ u, stripLeadingSlashes (replaceBackslash p) = p)
    (H2 : ∀ p ∈ u, ∀ q ∈ u, jsLower p = jsLower q → p = q) :
    (backfillMapRobot u np rk (backfillMapRobot u np rk r).1).1
      = (backfillMapRobot u np rk r).1
  ∧ (backfillMapRobot u np rk (backfillMapRobot u np rk r).1).2.1 = false := by
  cases hch : (backfillMapRobot u np rk r).2.1 with
  | true =>
    have h : backfillMapRobot u np rk r
        = ((backfillMapRobot u np rk r).1, true, (backfillMapRobot u np rk r).2.2) := by
      rw [← hch]
    have hst := backfillMapRobot_stable u np rk r _ _ H1 H2 h
    rw [hst]
    exact ⟨rfl, rfl⟩
  | false =>
    have hr := (backfillMapRobot_cases u np rk r).resolve_left (by simp [hch])
    rw [hr]
    exact ⟨hr, hch⟩

/-- Re-scanning the robot list produced by one scan changes nothing. -/
theorem scanRobots_stable (u : List String) (np rk : String) (rs : List Robot)
    (H1 : ∀ p ∈ u, stripLeadingSlashes (replaceBackslash p) = p)
    (H2 : ∀ p ∈ u, ∀ q ∈ u, jsLower p = jsLower q → p = q) :
    (scanRobots u np rk (scanRobots u np rk rs).robots).changed = false
  ∧ (scanRobots u np rk (scanRobots u np rk rs).robots).robots
      = (scanRobots u np rk rs).robots := by
  induction rs with
  | nil => exact ⟨rfl, rfl⟩
  | cons r rest ih =>
    have htw := backfillMapRobot_twice u np rk r H1 H2
    simp only [scanRobots] at ih ⊢
    rw [htw.1, htw.2, ih.1, ih.2]
    exact ⟨rfl, rfl⟩

/-- Evaluation of backfill's `processEntry` on the processed path (valid repo
key, both fetches succeed, tree not truncated): scan the references, record
the missing ones, and either rewrite the entry and collect preview keys
(`changed`) or count it unchanged. -/
theorem processEntryB_eval (oracle : Entry → EntryFetch) (st : BState)
    (entry : Entry) (ri : RepoInfo) (rd : RepoData) (td : TreeData)
    (hkey : entryRepoKey entry ≠ "") (hrepo : parseRepo entry.repo = some ri)
    (hR : (oracle entry).repoResp = .ok rd) (hT : (oracle entry).treeResp = .ok td)
    (htr : td.truncated = false) :
    processEntryB oracle st entry =
      if (scanRobots (entryUrdfPaths entry.path td)
            (if entry.path = "" then "" else trimSlashes entry.path)
            (entryRepoKey entry) entry.robots).changed then
        ({ addPreviewKeys (entryRepoKey entry)
              (scanRobots (entryUrdfPaths entry.path td)
                (if entry.path = "" then "" else trimSlashes entry.path)
                (entryRepoKey entry) entry.robots).robots
              { st with missing := st.missing
                  ++ (scanRobots (entryUrdfPaths entry.path td)
                        (if entry.path = "" then "" else trimSlashes entry.path)
                        (entryRepoKey entry) entry.robots).missing } with
            updated := (addPreviewKeys (entryRepoKey entry)
              (scanRobots (entryUrdfPaths entry.path td)
                (if entry.path = "" then "" else trimSlashes entry.path)
                (entryRepoKey entry) entry.robots).robots
              { st with missing := st.missing
                  ++ (scanRobots (entryUrdfPaths entry.path td)
                        (if entry.path = "" then "" else trimSlashes entry.path)
                        (entryRepoKey entry) entry.robots).missing }).updated + 1 },
         { entry with robots :=
            (scanRobots (entryUrdfPaths entry.path td)
              (if entry.path = "" then "" else trimSlashes entry.path)
              (entryRepoKey entry) entry.robots).robots })
      else
        ({ st with
            missing := st.missing
              ++ (scanRobots (entryUrdfPaths entry.path td)
                    (if entry.path = "" then "" else trimSlashes entry.path)
                    (entryRepoKey entry) entry.robots).missing
            unchanged := st.unchanged + 1 },
         entry) := by
  simp [processEntryB, hkey, hrepo, hR, hT, htr]

/-- Rewriting an entry's robots in place does not change its repo key. -/
theorem entryRepoKey_set_robots (e : Entry) (x : List Robot) :
    entryRepoKey { e with robots := x } = entryRepoKey e := rfl

/-- C9 counterexample: the tree of `c9Oracle` holds `SUB/x.urdf` and
`sub/x.urdf`, which collide case-insensitively.  The first commit-mode run
rewrites the scoped reference `x.urdf` to `SUB/x.urdf` (the scoped basename
candidate); running backfill again on the committed catalog against the same
tree finds the exact case-insensitive lookup returning `sub/x.urdf` (the
*later* tree path wins the lowercased-path map) and rewrites the reference
again: the second report has one updated entry, not zero. -/
theorem c9_idempotence_cex :
    (backfillRun [] 0 true c9Oracle "t" [c9Entry]).catalogWrite = some [c9Entry1]
  ∧ (backfillRun [] 0 true c9Oracle "t" [c9Entry1]).report.updated = 1 :=
  ⟨rfl, rfl⟩

/-- C9 (amended): backfill re-processing is idempotent *provided* the entry's
candidate index contains no two paths equal up to case and no path carrying a
backslash or a leading slash (both hold for every tree GitHub actually
serves): re-processing the entry produced by one processed run marks zero
references changed — the run counts it unchanged (`updated` untouched),
returns it unmodified and records no new stale preview keys.  Backfill has no
removal mechanism at all (its committed catalog keeps every entry; see the
zero-match claim's theorem). -/
theorem c9_amended_idempotent (oracle : Entry → EntryFetch) (st1 st2 : BState)
    (entry : Entry) (ri : RepoInfo) (rd : RepoData) (td : TreeData)
    (hkey : entryRepoKey entry ≠ "") (hrepo : parseRepo entry.repo = some ri)
    (hR : (oracle entry).repoResp = .ok rd) (hT : (oracle entry).treeResp = .ok td)
    (htr : td.truncated = false)
    (horacle : oracle (processEntryB oracle st1 entry).2 = oracle entry)
    (H1 : ∀ p ∈ entryUrdfPaths entry.path td,
        stripLeadingSlashes (replaceBackslash p) = p)
    (H2 : ∀ p ∈ entryUrdfPaths entry.path td, ∀ q ∈ entryUrdfPaths entry.path td,
        jsLower p = jsLower q → p = q) :
    (processEntryB oracle st2 (processEntryB oracle st1 entry).2).1.updated
      = st2.updated
  ∧ (processEntryB oracle st2 (processEntryB oracle st1 entry).2).2
      = (processEntryB oracle st1 entry).2
  ∧ (processEntryB oracle st2 (processEntryB oracle st1 entry).2).1.previewKeySet
      = st2.previewKeySet := by
  have he := processEntryB_eval oracle st1 entry ri rd td hkey hrepo hR hT htr
  by_cases hch : (scanRobots (entryUrdfPaths entry.path td)
      (if entry.path = "" then "" else trimSlashes entry.path)
      (entryRepoKey entry) entry.robots).changed = true
  · -- first run rewrote the entry
    have he1 : (processEntryB oracle st1 entry).2
        = { entry with robots :=
            (scanRobots (entryUrdfPaths entry.path td)
              (if entry.path = "" then "" else trimSlashes entry.path)
              (entryRepoKey entry) entry.robots).robots } := by
      rw [he, if_pos hch]
    rw [he1] at horacle ⊢
    have he2 := processEntryB_eval oracle st2
      { entry with robots :=
          (scanRobots (entryUrdfPaths entry.path td)
            (if entry.path = "" then "" else trimSlashes entry.path)
            (entryRepoKey entry) entry.robots).robots }
      ri rd td hkey hrepo (by rw [horacle]; exact hR) (by rw [horacle]; exact hT) htr
    have hst := scanRobots_stable (entryUrdfPaths entry.path td)
      (if entry.path = "" then "" else trimSlashes entry.path)
      (entryRepoKey entry) entry.robots H1 H2
    simp only [entryRepoKey_set_robots] at he2
    rw [he2]
    rw [if_neg (by simp [hst.1])]
    exact ⟨rfl, rfl, rfl⟩
  · -- first run left the entry as it was
    have he1 : (processEntryB oracle st1 entry).2 = entry := by
      rw [he, if_neg hch]
    rw [he1]
    have he2 := processEntryB_eval oracle st2 entry ri rd td hkey hrepo hR hT htr
    rw [he2, if_neg hch]
    exact ⟨rfl, rfl, rfl⟩

/-- Witness for `c9_amended_idempotent` on a clean one-path tree. -/
theorem c9_amended_idempotent_w :
    (processEntryB c9OracleClean ⟨0, 0, 0, [], [], [], []⟩
        (processEntryB c9OracleClean ⟨0, 0, 0, [], [], [], []⟩
          c9EntryClean).2).1.updated = 0
  ∧ (processEntryB c9OracleClean ⟨0, 0, 0, [], [], [], []⟩
        (processEntryB c9OracleClean ⟨0, 0, 0, [], [], [], []⟩
          c9EntryClean).2).2
      = (processEntryB c9OracleClean ⟨0, 0, 0, [], [], [], []⟩ c9EntryClean).2
  ∧ (processEntryB c9OracleClean ⟨0, 0, 0, [], [], [], []⟩
        (processEntryB c9OracleClean ⟨0, 0, 0, [], [], [], []⟩
          c9EntryClean).2).1.previewKeySet = [] :=
  c9_amended_idempotent c9OracleClean ⟨0, 0, 0, [], [], [], []⟩
    ⟨0, 0, 0, [], [], [], []⟩ c9EntryClean ⟨"o", "r"⟩ ⟨"main"⟩
    ⟨false, [⟨"a/x.urdf", "blob"⟩]⟩ (by decide) (by decide) rfl rfl (by decide)
    rfl (by decide) (by decide)
